import Mathlib

/-!
# Verification of the asmkit instruction-stream encoder

A shallow embedding of the `asmkit-core` entity arena / label registry and
the `asmkit-x86_64` instruction-stream encoder, together with theorems
checking the specification's claims against the embedded code.

Conventions of the embedding:

* Rust machine integers (`u8`, `u16`, `u32`, `u64`, `u128`, `usize`) are
  modelled as `Nat`; where a theorem depends on the value fitting its Rust
  width, that bound appears as an explicit hypothesis.  None of the byte
  arithmetic in the encoder can overflow a `u8` (all operands stay below
  256), so no `% 256` is needed there.
* `Vec<u8>` becomes `List Nat`; `Vec::push`/`append` become list append.
* The mutable methods of `x86_64InstructionStream` become state-passing
  functions `State → ... → State`.
* `EntityList::get` panics in Rust on an out-of-range index; the embedding
  returns `Option` (`none` for the panic).  `EntityList::get_mut`-based
  update is embedded with `List.set`, which is a no-op out of range where
  Rust would panic; every theorem touching it carries an in-range
  hypothesis so only the panic-free domain is claimed.
-/

/-! ## asmkit-core: entity references and entity lists (`entity.rs`) -/

/-- `LabelRef(u32)` from `entity.rs`: an entity reference wrapping a dense
index.  `EntityRef::new(value: usize)` stores `value as u32`, i.e. the
index truncated to 32 bits. -/
structure EntityRef where
  val : Nat
deriving DecidableEq, Repr

/-- `EntityRef::new`: `Self(value as u32)` — the `usize` index truncated to
the 32-bit reference width. -/
def EntityRef.new (value : Nat) : EntityRef :=
  ⟨value % 2 ^ 32⟩

/-- `EntityRef::as_usize`: the raw index carried by the reference. -/
def EntityRef.as_usize (r : EntityRef) : Nat :=
  r.val

/-- `EntityList<T, Ref>` from `entity.rs`: a wrapper around a growable
vector, indexed only through entity references.  The Rust field is called
`private`, which is a Lean keyword, so it is named `items` here. -/
structure EntityList (T : Type) where
  items : List T
deriving DecidableEq, Repr

/-- `EntityList::new`: an empty list. -/
def EntityList.new {T : Type} : EntityList T :=
  ⟨[]⟩

/-- `EntityList::len`. -/
def EntityList.len {T : Type} (l : EntityList T) : Nat :=
  l.items.length

/-- `EntityList::push`: builds `Ref::new(self.private.len())`, appends the
item, and returns the reference (paired here with the updated list). -/
def EntityList.push {T : Type} (l : EntityList T) (item : T) :
    EntityRef × EntityList T :=
  (EntityRef.new l.items.length, ⟨l.items ++ [item]⟩)

/-- `EntityList::get`: `&self.private[item.as_usize()]`; Rust panics out of
range, embedded as `none`. -/
def EntityList.get {T : Type} (l : EntityList T) (item : EntityRef) :
    Option T :=
  l.items[item.as_usize]?

/-- `*self.private.get_mut(item) = value` — in-place overwrite through
`EntityList::get_mut`.  In range it matches Rust; out of range Rust panics
while `List.set` is a no-op, so theorems add an in-range hypothesis. -/
def EntityList.set {T : Type} (l : EntityList T) (item : EntityRef)
    (value : T) : EntityList T :=
  ⟨l.items.set item.as_usize value⟩

/-- `Label` from `entity.rs`: attached at an index, or not yet attached. -/
inductive Label where
  | Attached : Nat → Label
  | Unattached : Label
deriving DecidableEq, Repr

/-! ## asmkit-x86_64: registers (`register.rs`) -/

/-- `Reg8`: the 8-bit registers. -/
inductive Reg8 where
  | Al | Bl | Cl | Dl | Sil | Dil | Bpl | Spl
  | Ah | Bh | Ch | Dh
  | R8b | R9b | R10b | R11b | R12b | R13b | R14b | R15b
deriving DecidableEq, Fintype, Repr

/-- `Reg8::offset`: the 3-bit encoding offset. -/
def Reg8.offset : Reg8 → Nat
  | .Al => 0 | .Cl => 1 | .Dl => 2 | .Bl => 3
  | .Spl => 4 | .Bpl => 5 | .Sil => 6 | .Dil => 7
  | .Ah => 4 | .Ch => 5 | .Dh => 6 | .Bh => 7
  | .R8b => 0 | .R9b => 1 | .R10b => 2 | .R11b => 3
  | .R12b => 4 | .R13b => 5 | .R14b => 6 | .R15b => 7

/-- `Reg8::is_extension`: true exactly for `r8b`–`r15b`. -/
def Reg8.is_extension : Reg8 → Bool
  | .R8b | .R9b | .R10b | .R11b | .R12b | .R13b | .R14b | .R15b => true
  | _ => false

/-- `Reg8::is_reserved`: true exactly for `spl`, `bpl`, `sil`, `dil`. -/
def Reg8.is_reserved : Reg8 → Bool
  | .Spl | .Bpl | .Sil | .Dil => true
  | _ => false

/-- `Reg16`: the 16-bit registers. -/
inductive Reg16 where
  | Ax | Bx | Cx | Dx | Si | Di | Bp | Sp
  | R8w | R9w | R10w | R11w | R12w | R13w | R14w | R15w
deriving DecidableEq, Fintype, Repr

/-- `Reg16::offset`. -/
def Reg16.offset : Reg16 → Nat
  | .Ax => 0 | .Cx => 1 | .Dx => 2 | .Bx => 3
  | .Sp => 4 | .Bp => 5 | .Si => 6 | .Di => 7
  | .R8w => 0 | .R9w => 1 | .R10w => 2 | .R11w => 3
  | .R12w => 4 | .R13w => 5 | .R14w => 6 | .R15w => 7

/-- `Reg16::is_extension`. -/
def Reg16.is_extension : Reg16 → Bool
  | .R8w | .R9w | .R10w | .R11w | .R12w | .R13w | .R14w | .R15w => true
  | _ => false

/-- `Reg32`: the 32-bit registers. -/
inductive Reg32 where
  | Eax | Ebx | Ecx | Edx | Esi | Edi | Ebp | Esp
  | R8d | R9d | R10d | R11d | R12d | R13d | R14d | R15d
deriving DecidableEq, Fintype, Repr

/-- `Reg32::offset`. -/
def Reg32.offset : Reg32 → Nat
  | .Eax => 0 | .Ecx => 1 | .Edx => 2 | .Ebx => 3
  | .Esp => 4 | .Ebp => 5 | .Esi => 6 | .Edi => 7
  | .R8d => 0 | .R9d => 1 | .R10d => 2 | .R11d => 3
  | .R12d => 4 | .R13d => 5 | .R14d => 6 | .R15d => 7

/-- `Reg32::is_extension`. -/
def Reg32.is_extension : Reg32 → Bool
  | .R8d | .R9d | .R10d | .R11d | .R12d | .R13d | .R14d | .R15d => true
  | _ => false

/-- `Reg64`: the 64-bit registers. -/
inductive Reg64 where
  | Rax | Rbx | Rcx | Rdx | Rsi | Rdi | Rbp | Rsp
  | R8 | R9 | R10 | R11 | R12 | R13 | R14 | R15
deriving DecidableEq, Fintype, Repr

/-- `Reg64::offset`. -/
def Reg64.offset : Reg64 → Nat
  | .Rax => 0 | .Rcx => 1 | .Rdx => 2 | .Rbx => 3
  | .Rsp => 4 | .Rbp => 5 | .Rsi => 6 | .Rdi => 7
  | .R8 => 0 | .R9 => 1 | .R10 => 2 | .R11 => 3
  | .R12 => 4 | .R13 => 5 | .R14 => 6 | .R15 => 7

/-- `Reg64::is_extension`. -/
def Reg64.is_extension : Reg64 → Bool
  | .R8 | .R9 | .R10 | .R11 | .R12 | .R13 | .R14 | .R15 => true
  | _ => false

/-! ## asmkit-x86_64: the instruction stream (`stream.rs`) -/

/-- `REX = 0b01000000`. -/
def REX : Nat := 0b01000000

/-- `REX_W = 0b1000`. -/
def REX_W : Nat := 0b1000

/-- `REX_R = 0b100`. -/
def REX_R : Nat := 0b100

/-- `REX_X = 0b10`. -/
def REX_X : Nat := 0b10

/-- `REX_B = 0b1`. -/
def REX_B : Nat := 0b1

/-- The state of `x86_64InstructionStream`: the emitted bytes and the label
registry. -/
structure x86_64InstructionStream where
  bytes : List Nat
  labels : EntityList Label
deriving DecidableEq, Repr

namespace x86_64InstructionStream

/-- `x86_64InstructionStream::new`: empty buffer, empty registry. -/
def new : x86_64InstructionStream :=
  { bytes := [], labels := EntityList.new }

/-- `create_label`: `self.labels.push(Label::Unattached)`. -/
def create_label (s : x86_64InstructionStream) :
    EntityRef × x86_64InstructionStream :=
  let p := s.labels.push Label.Unattached
  (p.1, { s with labels := p.2 })

/-- `create_label_attached`:
`self.labels.push(Label::Attached(self.labels.len()))` — the argument
`self.labels.len()` is evaluated before the push. -/
def create_label_attached (s : x86_64InstructionStream) :
    EntityRef × x86_64InstructionStream :=
  let p := s.labels.push (Label.Attached s.labels.len)
  (p.1, { s with labels := p.2 })

/-- `attach_label`:
`*self.labels.get_mut(label) = Label::Attached(self.labels.len())`. -/
def attach_label (s : x86_64InstructionStream) (label : EntityRef) :
    x86_64InstructionStream :=
  { s with labels := s.labels.set label (Label.Attached s.labels.len) }

/-- `uN::to_le_bytes` for an `n`-byte width: the little-endian byte
decomposition of `v`. -/
def to_le_bytes : Nat → Nat → List Nat
  | 0, _ => []
  | n + 1, v => v % 256 :: to_le_bytes n (v / 256)

/-- `write_byte`: `self.bytes.push(byte)`. -/
def write_byte (s : x86_64InstructionStream) (byte : Nat) :
    x86_64InstructionStream :=
  { s with bytes := s.bytes ++ [byte] }

/-- `write_word`: append `word.to_le_bytes()` (2 bytes). -/
def write_word (s : x86_64InstructionStream) (word : Nat) :
    x86_64InstructionStream :=
  { s with bytes := s.bytes ++ to_le_bytes 2 word }

/-- `write_double_word`: append `word.to_le_bytes()` (4 bytes). -/
def write_double_word (s : x86_64InstructionStream) (word : Nat) :
    x86_64InstructionStream :=
  { s with bytes := s.bytes ++ to_le_bytes 4 word }

/-- `write_quad_word`: append `word.to_le_bytes()` (8 bytes). -/
def write_quad_word (s : x86_64InstructionStream) (word : Nat) :
    x86_64InstructionStream :=
  { s with bytes := s.bytes ++ to_le_bytes 8 word }

/-- `write_double_quad_word`: append `word.to_le_bytes()` (16 bytes). -/
def write_double_quad_word (s : x86_64InstructionStream) (word : Nat) :
    x86_64InstructionStream :=
  { s with bytes := s.bytes ++ to_le_bytes 16 word }

/-- `mov_reg8_reg8` from `stream.rs`, lines 84–106: conditional REX byte
(with `REX_B`/`REX_R` also set for reserved operands, exactly as the source
writes it), opcode byte `88` (decimal), then the ModRM byte. -/
def mov_reg8_reg8 (s : x86_64InstructionStream) (dest src : Reg8) :
    x86_64InstructionStream :=
  let is_dest_ext := dest.is_extension
  let is_src_ext := src.is_extension
  let is_dest_res := dest.is_reserved
  let is_src_res := src.is_reserved
  let s :=
    if is_dest_ext || is_src_ext || is_dest_res || is_src_res then
      let p := REX
      let p := if is_dest_ext || is_dest_res then p ||| REX_B else p
      let p := if is_src_ext || is_src_res then p ||| REX_R else p
      s.write_byte p
    else s
  let s := s.write_byte 88
  s.write_byte ((0b11 <<< 6) ||| (src.offset <<< 3) ||| dest.offset)

/-- `mov_reg16_reg16`, lines 109–130: `0x66`, conditional REX byte, opcode
`0x89`, ModRM byte. -/
def mov_reg16_reg16 (s : x86_64InstructionStream) (dest src : Reg16) :
    x86_64InstructionStream :=
  let s := s.write_byte 0x66
  let is_dest_ext := dest.is_extension
  let is_src_ext := src.is_extension
  let s :=
    if is_dest_ext || is_src_ext then
      let p := REX
      let p := if is_dest_ext then p ||| REX_B else p
      let p := if is_src_ext then p ||| REX_R else p
      s.write_byte p
    else s
  let s := s.write_byte 0x89
  s.write_byte ((0b11 <<< 6) ||| (src.offset <<< 3) ||| dest.offset)

/-- `mov_reg32_reg32`, lines 133–152: conditional REX byte, opcode `0x89`,
ModRM byte. -/
def mov_reg32_reg32 (s : x86_64InstructionStream) (dest src : Reg32) :
    x86_64InstructionStream :=
  let is_dest_ext := dest.is_extension
  let is_src_ext := src.is_extension
  let s :=
    if is_dest_ext || is_src_ext then
      let p := REX
      let p := if is_dest_ext then p ||| REX_B else p
      let p := if is_src_ext then p ||| REX_R else p
      s.write_byte p
    else s
  let s := s.write_byte 0x89
  s.write_byte ((0b11 <<< 6) ||| (src.offset <<< 3) ||| dest.offset)

/-- `mov_reg64_reg64`, lines 155–169: unconditional `REX | REX_W` byte
(plus `REX_B`/`REX_R` for extension operands), opcode `0x89`, ModRM
byte. -/
def mov_reg64_reg64 (s : x86_64InstructionStream) (dest src : Reg64) :
    x86_64InstructionStream :=
  let p := REX ||| REX_W
  let p := if dest.is_extension then p ||| REX_B else p
  let p := if src.is_extension then p ||| REX_R else p
  let s := s.write_byte p
  let s := s.write_byte 0x89
  s.write_byte ((0b11 <<< 6) ||| (src.offset <<< 3) ||| dest.offset)

/-- `mov_reg8_imm8`, lines 172–181: `REX | REX_B` for an extension
destination, else bare `REX` for a reserved destination; opcode `0xb0 +
offset`; then the immediate byte. -/
def mov_reg8_imm8 (s : x86_64InstructionStream) (dest : Reg8) (src : Nat) :
    x86_64InstructionStream :=
  let s :=
    if dest.is_extension then s.write_byte (REX ||| REX_B)
    else if dest.is_reserved then s.write_byte REX
    else s
  let s := s.write_byte (0xb0 + dest.offset)
  s.write_byte src

/-- `mov_reg16_imm16`, lines 184–193: `0x66`, conditional `REX | REX_B`,
opcode `0xb8 + offset`, then the 2 little-endian immediate bytes. -/
def mov_reg16_imm16 (s : x86_64InstructionStream) (dest : Reg16)
    (src : Nat) : x86_64InstructionStream :=
  let s := s.write_byte 0x66
  let s := if dest.is_extension then s.write_byte (REX ||| REX_B) else s
  let s := s.write_byte (0xb8 + dest.offset)
  s.write_word src

/-- `mov_reg32_imm32`, lines 196–203. -/
def mov_reg32_imm32 (s : x86_64InstructionStream) (dest : Reg32)
    (src : Nat) : x86_64InstructionStream :=
  let s := if dest.is_extension then s.write_byte (REX ||| REX_B) else s
  let s := s.write_byte (0xb8 + dest.offset)
  s.write_double_word src

/-- `mov_reg64_imm32`, lines 206–216: `REX | REX_W` (plus `REX_B` for an
extension destination), opcode `0xc7 + offset`, then the 4 little-endian
immediate bytes — no ModRM byte. -/
def mov_reg64_imm32 (s : x86_64InstructionStream) (dest : Reg64)
    (src : Nat) : x86_64InstructionStream :=
  let p := REX ||| REX_W
  let p := if dest.is_extension then p ||| REX_B else p
  let s := s.write_byte p
  let s := s.write_byte (0xc7 + dest.offset)
  s.write_double_word src

/-- `mov_reg64_imm64`, lines 219–230. -/
def mov_reg64_imm64 (s : x86_64InstructionStream) (dest : Reg64)
    (src : Nat) : x86_64InstructionStream :=
  let p := REX ||| REX_W
  let p := if dest.is_extension then p ||| REX_B else p
  let s := s.write_byte p
  let s := s.write_byte (0xb8 + dest.offset)
  s.write_quad_word src

/-- `push_reg16`, lines 233–236: writes `REX | REX_X`, then `0x50 +
offset` — the source emits no `0x66` operand-size override here. -/
def push_reg16 (s : x86_64InstructionStream) (reg16 : Reg16) :
    x86_64InstructionStream :=
  let s := s.write_byte (REX ||| REX_X)
  s.write_byte (0x50 + reg16.offset)

/-- `push_reg64`, lines 239–244. -/
def push_reg64 (s : x86_64InstructionStream) (reg64 : Reg64) :
    x86_64InstructionStream :=
  let s := if reg64.is_extension then s.write_byte 0x41 else s
  s.write_byte (0x50 + reg64.offset)

/-- `ret_near`, line 279–281. -/
def ret_near (s : x86_64InstructionStream) : x86_64InstructionStream :=
  s.write_byte 0xc3

/-- Recompose a little-endian byte list into the number it represents
(specification-side inverse of `to_le_bytes`). -/
def from_le_bytes (l : List Nat) : Nat :=
  l.foldr (fun b acc => b + 256 * acc) 0

end x86_64InstructionStream

/-- Iterate `EntityList::push` over a list of values, collecting the
returned references in order. -/
def pushMany {T : Type} (l : EntityList T) (vs : List T) :
    EntityList T × List EntityRef :=
  match vs with
  | [] => (l, [])
  | v :: rest =>
    let p := l.push v
    let q := pushMany p.2 rest
    (q.1, p.1 :: q.2)

/-! ## Supporting lemmas -/

namespace x86_64InstructionStream

/-- `to_le_bytes n v` always has exactly `n` bytes. -/
theorem to_le_bytes_length (n v : Nat) : (to_le_bytes n v).length = n := by
  induction n generalizing v with
  | zero => rfl
  | succ n ih => simp [to_le_bytes, ih]

/-- `to_le_bytes` really is the little-endian representation: recomposing
its output returns the value, whenever the value fits the width. -/
theorem from_to_le_bytes (n v : Nat) (h : v < 2 ^ (8 * n)) :
    from_le_bytes (to_le_bytes n v) = v := by
  induction n generalizing v with
  | zero =>
    interval_cases v
    rfl
  | succ n ih =>
    have hdiv : v / 256 < 2 ^ (8 * n) := by
      rw [Nat.div_lt_iff_lt_mul (by norm_num)]
      calc v < 2 ^ (8 * (n + 1)) := h
        _ = 2 ^ (8 * n) * 256 := by ring
    simp only [to_le_bytes, from_le_bytes, List.foldr_cons]
    have := ih (v / 256) hdiv
    simp only [from_le_bytes] at this
    rw [this]
    omega

/-- Appending to a nonempty suffix does not change the last element. -/
theorem getLastD_append (l₁ l₂ : List Nat) (h : l₂ ≠ []) :
    (l₁ ++ l₂).getLastD 0 = l₂.getLastD 0 := by
  simp [List.getLastD_eq_getLast?, List.getLast?_append_of_ne_nil _ h]

/-- The bytes `mov_reg8_reg8` emits depend only on the registers and are
appended after the existing buffer; the label registry is untouched. -/
theorem mov_reg8_reg8_bytes (s : x86_64InstructionStream) (d sr : Reg8) :
    (s.mov_reg8_reg8 d sr).bytes
      = s.bytes ++ (new.mov_reg8_reg8 d sr).bytes
    ∧ (s.mov_reg8_reg8 d sr).labels = s.labels := by
  cases h : (d.is_extension || sr.is_extension || d.is_reserved
      || sr.is_reserved) <;>
    simp [mov_reg8_reg8, write_byte, new, h]

/-- Same decomposition for `mov_reg16_reg16`. -/
theorem mov_reg16_reg16_bytes (s : x86_64InstructionStream) (d sr : Reg16) :
    (s.mov_reg16_reg16 d sr).bytes
      = s.bytes ++ (new.mov_reg16_reg16 d sr).bytes
    ∧ (s.mov_reg16_reg16 d sr).labels = s.labels := by
  cases h : (d.is_extension || sr.is_extension) <;>
    simp [mov_reg16_reg16, write_byte, new, h]

/-- Same decomposition for `mov_reg32_reg32`. -/
theorem mov_reg32_reg32_bytes (s : x86_64InstructionStream) (d sr : Reg32) :
    (s.mov_reg32_reg32 d sr).bytes
      = s.bytes ++ (new.mov_reg32_reg32 d sr).bytes
    ∧ (s.mov_reg32_reg32 d sr).labels = s.labels := by
  cases h : (d.is_extension || sr.is_extension) <;>
    simp [mov_reg32_reg32, write_byte, new, h]

/-- Same decomposition for `mov_reg64_reg64`. -/
theorem mov_reg64_reg64_bytes (s : x86_64InstructionStream) (d sr : Reg64) :
    (s.mov_reg64_reg64 d sr).bytes
      = s.bytes ++ (new.mov_reg64_reg64 d sr).bytes
    ∧ (s.mov_reg64_reg64 d sr).labels = s.labels := by
  simp [mov_reg64_reg64, write_byte, new]

/-- The trailing-byte property of the four register-to-register move
forms, checked on the empty stream over the whole register enumeration:
the encoding is nonempty and its last byte splits into the `11`
addressing-mode field, the source offset, and the destination offset. -/
theorem reg8_trailing : ∀ d sr : Reg8,
    (new.mov_reg8_reg8 d sr).bytes ≠ []
    ∧ ((new.mov_reg8_reg8 d sr).bytes.getLastD 0) >>> 6 = 3
    ∧ (((new.mov_reg8_reg8 d sr).bytes.getLastD 0) >>> 3) % 8 = sr.offset
    ∧ ((new.mov_reg8_reg8 d sr).bytes.getLastD 0) % 8 = d.offset := by
  decide

/-- Trailing-byte property for `mov_reg16_reg16` on the empty stream. -/
theorem reg16_trailing : ∀ d sr : Reg16,
    (new.mov_reg16_reg16 d sr).bytes ≠ []
    ∧ ((new.mov_reg16_reg16 d sr).bytes.getLastD 0) >>> 6 = 3
    ∧ (((new.mov_reg16_reg16 d sr).bytes.getLastD 0) >>> 3) % 8 = sr.offset
    ∧ ((new.mov_reg16_reg16 d sr).bytes.getLastD 0) % 8 = d.offset := by
  decide

/-- Trailing-byte property for `mov_reg32_reg32` on the empty stream. -/
theorem reg32_trailing : ∀ d sr : Reg32,
    (new.mov_reg32_reg32 d sr).bytes ≠ []
    ∧ ((new.mov_reg32_reg32 d sr).bytes.getLastD 0) >>> 6 = 3
    ∧ (((new.mov_reg32_reg32 d sr).bytes.getLastD 0) >>> 3) % 8 = sr.offset
    ∧ ((new.mov_reg32_reg32 d sr).bytes.getLastD 0) % 8 = d.offset := by
  decide

/-- Trailing-byte property for `mov_reg64_reg64` on the empty stream. -/
theorem reg64_trailing : ∀ d sr : Reg64,
    (new.mov_reg64_reg64 d sr).bytes ≠ []
    ∧ ((new.mov_reg64_reg64 d sr).bytes.getLastD 0) >>> 6 = 3
    ∧ (((new.mov_reg64_reg64 d sr).bytes.getLastD 0) >>> 3) % 8 = sr.offset
    ∧ ((new.mov_reg64_reg64 d sr).bytes.getLastD 0) % 8 = d.offset := by
  decide

end x86_64InstructionStream

namespace x86_64InstructionStream

/-- Opcode-byte position facts for `mov_reg8_reg8` on the empty stream:
the encoding has at least two bytes and the byte immediately before the
last one is the opcode, decimal `88`. -/
theorem reg8_opcode_aux : ∀ d sr : Reg8,
    (new.mov_reg8_reg8 d sr).bytes ≠ []
    ∧ (new.mov_reg8_reg8 d sr).bytes.dropLast ≠ []
    ∧ ((new.mov_reg8_reg8 d sr).bytes.dropLast).getLastD 0 = 88 := by
  decide

end x86_64InstructionStream

/-- C1: for every register-to-register move form (8-, 16-, 32-, and
64-bit) and every pair of registers, whatever the stream already
contains, the last byte emitted splits as: top two bits `11`, middle
three bits the source register's 3-bit offset, low three bits the
destination register's 3-bit offset. -/
theorem c1_mov_rr_trailing_operand_byte (s : x86_64InstructionStream) :
    (∀ d sr : Reg8, (s.mov_reg8_reg8 d sr).bytes ≠ []
      ∧ ((s.mov_reg8_reg8 d sr).bytes.getLastD 0) >>> 6 = 3
      ∧ (((s.mov_reg8_reg8 d sr).bytes.getLastD 0) >>> 3) % 8 = sr.offset
      ∧ ((s.mov_reg8_reg8 d sr).bytes.getLastD 0) % 8 = d.offset)
    ∧ (∀ d sr : Reg16, (s.mov_reg16_reg16 d sr).bytes ≠ []
      ∧ ((s.mov_reg16_reg16 d sr).bytes.getLastD 0) >>> 6 = 3
      ∧ (((s.mov_reg16_reg16 d sr).bytes.getLastD 0) >>> 3) % 8 = sr.offset
      ∧ ((s.mov_reg16_reg16 d sr).bytes.getLastD 0) % 8 = d.offset)
    ∧ (∀ d sr : Reg32, (s.mov_reg32_reg32 d sr).bytes ≠ []
      ∧ ((s.mov_reg32_reg32 d sr).bytes.getLastD 0) >>> 6 = 3
      ∧ (((s.mov_reg32_reg32 d sr).bytes.getLastD 0) >>> 3) % 8 = sr.offset
      ∧ ((s.mov_reg32_reg32 d sr).bytes.getLastD 0) % 8 = d.offset)
    ∧ (∀ d sr : Reg64, (s.mov_reg64_reg64 d sr).bytes ≠ []
      ∧ ((s.mov_reg64_reg64 d sr).bytes.getLastD 0) >>> 6 = 3
      ∧ (((s.mov_reg64_reg64 d sr).bytes.getLastD 0) >>> 3) % 8 = sr.offset
      ∧ ((s.mov_reg64_reg64 d sr).bytes.getLastD 0) % 8 = d.offset) := by
  open x86_64InstructionStream in
  refine ⟨fun d sr => ?_, fun d sr => ?_, fun d sr => ?_, fun d sr => ?_⟩
  · obtain ⟨hne, h1, h2, h3⟩ := reg8_trailing d sr
    rw [(mov_reg8_reg8_bytes s d sr).1, getLastD_append _ _ hne]
    exact ⟨by simp [hne], h1, h2, h3⟩
  · obtain ⟨hne, h1, h2, h3⟩ := reg16_trailing d sr
    rw [(mov_reg16_reg16_bytes s d sr).1, getLastD_append _ _ hne]
    exact ⟨by simp [hne], h1, h2, h3⟩
  · obtain ⟨hne, h1, h2, h3⟩ := reg32_trailing d sr
    rw [(mov_reg32_reg32_bytes s d sr).1, getLastD_append _ _ hne]
    exact ⟨by simp [hne], h1, h2, h3⟩
  · obtain ⟨hne, h1, h2, h3⟩ := reg64_trailing d sr
    rw [(mov_reg64_reg64_bytes s d sr).1, getLastD_append _ _ hne]
    exact ⟨by simp [hne], h1, h2, h3⟩

/-- C9: for every pair of 8-bit registers and any prior stream contents,
the byte `mov_reg8_reg8` emits immediately before the trailing
operand-encoding byte is the opcode, decimal `88` (= `0x58`). -/
theorem c9_mov_reg8_reg8_opcode (s : x86_64InstructionStream) :
    ∀ d sr : Reg8, (s.mov_reg8_reg8 d sr).bytes.dropLast ≠ []
      ∧ ((s.mov_reg8_reg8 d sr).bytes.dropLast).getLastD 0 = 88 := by
  open x86_64InstructionStream in
  intro d sr
  obtain ⟨hne, hdne, hop⟩ := reg8_opcode_aux d sr
  rw [(mov_reg8_reg8_bytes s d sr).1, List.dropLast_append_of_ne_nil _ hne,
    getLastD_append _ _ hdne]
  exact ⟨by simp [hdne], hop⟩

namespace x86_64InstructionStream

/-- On the empty stream, a 64-bit register-to-register move between two
non-extension registers is exactly the 3-byte sequence
`[REX | REX_W, 0x89, modrm]`. -/
theorem reg64_nonext_bytes : ∀ d sr : Reg64,
    d.is_extension = false → sr.is_extension = false →
    (new.mov_reg64_reg64 d sr).bytes
      = [REX ||| REX_W, 0x89,
          (0b11 <<< 6) ||| (sr.offset <<< 3) ||| d.offset] := by
  decide

/-- On the empty stream, the first byte of every 64-bit
register-to-register move exists and has the `REX_W` bit set. -/
theorem reg64_w_aux : ∀ d sr : Reg64,
    (new.mov_reg64_reg64 d sr).bytes[0]? ≠ none
    ∧ ((new.mov_reg64_reg64 d sr).bytes[0]?.getD 0) &&& REX_W = REX_W := by
  decide

end x86_64InstructionStream

/-- C5: for every pair of non-extension 64-bit registers,
`mov_reg64_reg64` appends exactly the 3 bytes `REX | REX_W` (= `0x48`),
the opcode `0x89`, and the computed operand-encoding byte; and for every
pair of 64-bit registers whatsoever, the first emitted byte (the one at
the old buffer length) has the width-signaling `REX_W` bit set. -/
theorem c5_mov64_rr_shape (s : x86_64InstructionStream) (d sr : Reg64)
    (hd : d.is_extension = false) (hs : sr.is_extension = false) :
    (s.mov_reg64_reg64 d sr).bytes
      = s.bytes ++ [REX ||| REX_W, 0x89,
          (0b11 <<< 6) ||| (sr.offset <<< 3) ||| d.offset]
    ∧ ∀ d' sr' : Reg64,
        (s.mov_reg64_reg64 d' sr').bytes[s.bytes.length]? ≠ none
        ∧ ((s.mov_reg64_reg64 d' sr').bytes[s.bytes.length]?.getD 0)
            &&& REX_W = REX_W := by
  open x86_64InstructionStream in
  constructor
  · rw [(mov_reg64_reg64_bytes s d sr).1, reg64_nonext_bytes d sr hd hs]
  · intro d' sr'
    rw [(mov_reg64_reg64_bytes s d' sr').1,
      List.getElem?_append_right (le_refl s.bytes.length)]
    simpa using reg64_w_aux d' sr'

/-- C5 witness: the theorem applied to the empty stream and the
non-extension pair `rax`, `rbx`. -/
theorem c5_mov64_rr_shape_witness :
    (Reg64.Rax.is_extension = false) ∧ (Reg64.Rbx.is_extension = false)
    ∧ ((x86_64InstructionStream.new.mov_reg64_reg64 .Rax .Rbx).bytes
        = x86_64InstructionStream.new.bytes ++ [REX ||| REX_W, 0x89,
            (0b11 <<< 6) ||| (Reg64.Rbx.offset <<< 3) ||| Reg64.Rax.offset]
      ∧ ∀ d' sr' : Reg64,
          (x86_64InstructionStream.new.mov_reg64_reg64 d' sr').bytes[
              x86_64InstructionStream.new.bytes.length]? ≠ none
          ∧ ((x86_64InstructionStream.new.mov_reg64_reg64 d' sr').bytes[
              x86_64InstructionStream.new.bytes.length]?.getD 0)
              &&& REX_W = REX_W) :=
  ⟨rfl, rfl,
    c5_mov64_rr_shape x86_64InstructionStream.new .Rax .Rbx rfl rfl⟩

/-- C10: for every 64-bit destination and every immediate fitting 32
bits, `mov_reg64_imm32` appends exactly 6 bytes — a `REX | REX_W` byte
(with `REX_B` added for an extension destination), the opcode
`0xc7 + offset`, and the 4 little-endian immediate bytes (which recompose
to the immediate) — with no operand-encoding byte, leaving the label
registry unchanged. -/
theorem c10_mov_reg64_imm32_shape (s : x86_64InstructionStream)
    (d : Reg64) (w : Nat) (hw : w < 2 ^ 32) :
    (s.mov_reg64_imm32 d w).bytes
      = s.bytes
        ++ (if d.is_extension then REX ||| REX_W ||| REX_B
            else REX ||| REX_W)
          :: (0xc7 + d.offset) :: x86_64InstructionStream.to_le_bytes 4 w
    ∧ (s.mov_reg64_imm32 d w).bytes.length = s.bytes.length + 6
    ∧ x86_64InstructionStream.from_le_bytes
        (x86_64InstructionStream.to_le_bytes 4 w) = w
    ∧ (s.mov_reg64_imm32 d w).labels = s.labels := by
  open x86_64InstructionStream in
  have hb : (s.mov_reg64_imm32 d w).bytes
      = s.bytes
        ++ (if d.is_extension then REX ||| REX_W ||| REX_B
            else REX ||| REX_W)
          :: (0xc7 + d.offset) :: to_le_bytes 4 w := by
    cases h : d.is_extension <;>
      simp [mov_reg64_imm32, write_byte, write_double_word, h]
  refine ⟨hb, ?_, ?_, ?_⟩
  · rw [hb]
    simp [x86_64InstructionStream.to_le_bytes_length]
  · exact x86_64InstructionStream.from_to_le_bytes 4 w
      (lt_of_lt_of_le hw (by norm_num))
  · cases h : d.is_extension <;>
      simp [x86_64InstructionStream.mov_reg64_imm32,
        x86_64InstructionStream.write_byte,
        x86_64InstructionStream.write_double_word, h]

/-- C10 witness: the theorem applied to the empty stream, the extension
destination `r9`, and the immediate `0x12345678`. -/
theorem c10_mov_reg64_imm32_shape_witness :
    (0x12345678 : Nat) < 2 ^ 32
    ∧ ((x86_64InstructionStream.new.mov_reg64_imm32 .R9 0x12345678).bytes
        = x86_64InstructionStream.new.bytes
          ++ (if Reg64.R9.is_extension then REX ||| REX_W ||| REX_B
              else REX ||| REX_W)
            :: (0xc7 + Reg64.R9.offset)
            :: x86_64InstructionStream.to_le_bytes 4 0x12345678
      ∧ (x86_64InstructionStream.new.mov_reg64_imm32 .R9 0x12345678).bytes.length
          = x86_64InstructionStream.new.bytes.length + 6
      ∧ x86_64InstructionStream.from_le_bytes
          (x86_64InstructionStream.to_le_bytes 4 0x12345678) = 0x12345678
      ∧ (x86_64InstructionStream.new.mov_reg64_imm32 .R9 0x12345678).labels
          = x86_64InstructionStream.new.labels) :=
  ⟨by decide,
    c10_mov_reg64_imm32_shape x86_64InstructionStream.new .R9 0x12345678
      (by decide)⟩

/-- C2: evaluating the code at the claim's failing input.  With the
reserved destination `spl` and the plain source `al`, `mov_reg8_reg8`
emits the prefix byte `REX | REX_B` (= `0x41`), which differs from the
bare `REX` (= `0x40`) the claim demands — the source sets the extension
flag bits `REX_B`/`REX_R` for reserved operands too.  By contrast,
`mov_reg8_imm8` with the same reserved destination does emit the bare
`REX` the claim describes. -/
theorem c2_reserved_dest_code_eval :
    (x86_64InstructionStream.new.mov_reg8_reg8 .Spl .Al).bytes
      = [REX ||| REX_B, 88, 196]
    ∧ REX ||| REX_B ≠ REX
    ∧ (x86_64InstructionStream.new.mov_reg8_imm8 .Spl 0).bytes
      = [REX, 180, 0] := by
  decide

/-- C3: evaluating the code at the claim's failing input.  `push_reg16`
never emits the operand-size override `0x66`: its first byte is always
`REX | REX_X` (= `0x42`), as the evaluation at `ax` shows.  The two
16-bit move forms do start with `0x66` for every destination, so the
violation is specific to `push_reg16`. -/
theorem c3_push_reg16_code_eval :
    (x86_64InstructionStream.new.push_reg16 .Ax).bytes
      = [REX ||| REX_X, 0x50]
    ∧ REX ||| REX_X ≠ 0x66
    ∧ (∀ r : Reg16,
        (x86_64InstructionStream.new.push_reg16 r).bytes.head? ≠ some 0x66)
    ∧ (∀ d sr : Reg16,
        (x86_64InstructionStream.new.mov_reg16_reg16 d sr).bytes.head?
          = some 0x66)
    ∧ (∀ d : Reg16,
        (x86_64InstructionStream.new.mov_reg16_imm16 d 0).bytes.head?
          = some 0x66) := by
  decide

/-- C4: label lifecycle.  `create_label` leaves the new label
`Unattached`; `create_label_attached` leaves it `Attached` at the
registry length at creation time; `attach_label` on any in-range
reference leaves that label `Attached` at the registry length at attach
time.  In particular, creating three labels with `create_label` and then
attaching the second leaves the registry length at 3, the second label
`Attached 3`, and the first and third `Unattached`. -/
theorem c4_label_lifecycle (s : x86_64InstructionStream)
    (h : s.labels.len < 2 ^ 32) :
    (s.create_label.2.labels.get s.create_label.1 = some Label.Unattached)
    ∧ (s.create_label_attached.2.labels.get s.create_label_attached.1
        = some (Label.Attached s.labels.len))
    ∧ (∀ l : EntityRef, l.as_usize < s.labels.len →
        (s.attach_label l).labels.get l
          = some (Label.Attached s.labels.len))
    ∧ (let s3 :=
        (((x86_64InstructionStream.new.create_label).2.create_label).2.create_label).2
       let r2 := ((x86_64InstructionStream.new.create_label).2.create_label).1
       let s4 := s3.attach_label r2
       s4.labels.len = 3
       ∧ s4.labels.get r2 = some (Label.Attached 3)
       ∧ s4.labels.get (x86_64InstructionStream.new.create_label).1
           = some Label.Unattached
       ∧ s4.labels.get
           ((((x86_64InstructionStream.new.create_label).2.create_label).2.create_label).1)
           = some Label.Unattached) := by
  open x86_64InstructionStream in
  simp only [EntityList.len] at h
  refine ⟨?_, ?_, ?_, by decide⟩
  · simp only [create_label, EntityList.push, EntityList.get,
      EntityRef.new, EntityRef.as_usize]
    rw [Nat.mod_eq_of_lt h]
    simp
  · simp only [create_label_attached, EntityList.push, EntityList.get,
      EntityRef.new, EntityRef.as_usize]
    rw [Nat.mod_eq_of_lt h]
    simp
  · intro l hl
    simp only [EntityList.len] at hl
    simp only [attach_label, EntityList.set, EntityList.get,
      EntityRef.as_usize, EntityList.len]
    exact List.getElem?_set_self hl

/-- C4 witness: the theorem applied to a stream already holding one
label, so the attach clause fires for the reference with index 0. -/
theorem c4_label_lifecycle_witness :
    ((x86_64InstructionStream.new.create_label).2.labels.len < 2 ^ 32)
    ∧ (((x86_64InstructionStream.new.create_label).2.create_label.2.labels.get
          (x86_64InstructionStream.new.create_label).2.create_label.1
          = some Label.Unattached)
      ∧ ((x86_64InstructionStream.new.create_label).2.create_label_attached.2.labels.get
          (x86_64InstructionStream.new.create_label).2.create_label_attached.1
          = some (Label.Attached
              (x86_64InstructionStream.new.create_label).2.labels.len))
      ∧ (∀ l : EntityRef,
          l.as_usize < (x86_64InstructionStream.new.create_label).2.labels.len →
          ((x86_64InstructionStream.new.create_label).2.attach_label l).labels.get l
            = some (Label.Attached
                (x86_64InstructionStream.new.create_label).2.labels.len))
      ∧ (let s3 :=
          (((x86_64InstructionStream.new.create_label).2.create_label).2.create_label).2
         let r2 := ((x86_64InstructionStream.new.create_label).2.create_label).1
         let s4 := s3.attach_label r2
         s4.labels.len = 3
         ∧ s4.labels.get r2 = some (Label.Attached 3)
         ∧ s4.labels.get (x86_64InstructionStream.new.create_label).1
             = some Label.Unattached
         ∧ s4.labels.get
             ((((x86_64InstructionStream.new.create_label).2.create_label).2.create_label).1)
             = some Label.Unattached)) :=
  ⟨by decide,
    c4_label_lifecycle (x86_64InstructionStream.new.create_label).2 (by decide)⟩

/-- Unfolding `pushMany`: the backing items are the old items followed by
the pushed values, and the `i`-th returned reference encodes the index at
which the `i`-th value landed. -/
theorem pushMany_spec {T : Type} (l : EntityList T) (vs : List T) :
    (pushMany l vs).1.items = l.items ++ vs
    ∧ ∀ i < vs.length,
        (pushMany l vs).2[i]? = some (EntityRef.new (l.items.length + i)) := by
  induction vs generalizing l with
  | nil => simp [pushMany]
  | cons v rest ih =>
    obtain ⟨h1, h2⟩ := ih (l.push v).2
    constructor
    · rw [show (pushMany l (v :: rest)).1 = (pushMany (l.push v).2 rest).1
        from rfl, h1]
      simp [EntityList.push]
    · intro i hi
      rw [show (pushMany l (v :: rest)).2
        = (l.push v).1 :: (pushMany (l.push v).2 rest).2 from rfl]
      cases i with
      | zero => simp [EntityList.push]
      | succ j =>
        have hj : j < rest.length := by simpa using hi
        simp only [List.getElem?_cons_succ]
        rw [h2 j hj]
        simp [EntityList.push, Nat.add_assoc, Nat.add_comm 1 j]

/-- C6: pushing `n` values into a fresh entity list in order (with `n`
within the 32-bit reference width), `len` afterwards is `n`, the `i`-th
push returned the reference with index `i`, and `get` on that reference
yields exactly the `i`-th pushed value. -/
theorem c6_arena_roundtrip {T : Type} (vs : List T)
    (hn : vs.length ≤ 2 ^ 32) (i : Nat) (hi : i < vs.length) :
    (pushMany EntityList.new vs).1.len = vs.length
    ∧ (pushMany EntityList.new vs).2[i]? = some (EntityRef.new i)
    ∧ (pushMany EntityList.new vs).1.get (EntityRef.new i)
        = some (vs.get ⟨i, hi⟩) := by
  obtain ⟨h1, h2⟩ := pushMany_spec (EntityList.new : EntityList T) vs
  have h1' : (pushMany (EntityList.new : EntityList T) vs).1.items = vs := by
    simpa [EntityList.new] using h1
  have hi32 : i < 2 ^ 32 := lt_of_lt_of_le hi hn
  refine ⟨?_, ?_, ?_⟩
  · simp only [EntityList.len, h1']
  · simpa [EntityList.new] using h2 i hi
  · simp only [EntityList.get, EntityRef.new, EntityRef.as_usize, h1',
      Nat.mod_eq_of_lt hi32]
    simp [List.getElem?_eq_getElem hi]

/-- C6 witness: three values pushed into a fresh list; the second push's
reference reads back the second value and the length is 3. -/
theorem c6_arena_roundtrip_witness :
    ([10, 20, 30] : List Nat).length ≤ 2 ^ 32
    ∧ 1 < ([10, 20, 30] : List Nat).length
    ∧ ((pushMany EntityList.new [10, 20, 30]).1.len
        = ([10, 20, 30] : List Nat).length
      ∧ (pushMany EntityList.new [10, 20, 30]).2[1]?
        = some (EntityRef.new 1)
      ∧ (pushMany EntityList.new [10, 20, 30]).1.get (EntityRef.new 1)
        = some (([10, 20, 30] : List Nat).get ⟨1, by decide⟩)) :=
  ⟨by decide, by decide,
    c6_arena_roundtrip [10, 20, 30] (by decide) 1 (by decide)⟩

namespace x86_64InstructionStream

/-- C7: each write primitive appends exactly the little-endian byte
representation of its argument (1, 2, 4, 8, 16 bytes), leaving every
previously written byte (the old buffer is a prefix of the new one) and
the label registry unchanged; the emitted chunk has the stated length and
recomposes to the written value. -/
theorem c7_write_primitives (s : x86_64InstructionStream)
    (b w d q dq : Nat) (hb : b < 2 ^ 8) (hw : w < 2 ^ 16)
    (hd : d < 2 ^ 32) (hq : q < 2 ^ 64) (hdq : dq < 2 ^ 128) :
    ((s.write_byte b).bytes = s.bytes ++ to_le_bytes 1 b
      ∧ (s.write_byte b).labels = s.labels
      ∧ (to_le_bytes 1 b).length = 1
      ∧ from_le_bytes (to_le_bytes 1 b) = b)
    ∧ ((s.write_word w).bytes = s.bytes ++ to_le_bytes 2 w
      ∧ (s.write_word w).labels = s.labels
      ∧ (to_le_bytes 2 w).length = 2
      ∧ from_le_bytes (to_le_bytes 2 w) = w)
    ∧ ((s.write_double_word d).bytes = s.bytes ++ to_le_bytes 4 d
      ∧ (s.write_double_word d).labels = s.labels
      ∧ (to_le_bytes 4 d).length = 4
      ∧ from_le_bytes (to_le_bytes 4 d) = d)
    ∧ ((s.write_quad_word q).bytes = s.bytes ++ to_le_bytes 8 q
      ∧ (s.write_quad_word q).labels = s.labels
      ∧ (to_le_bytes 8 q).length = 8
      ∧ from_le_bytes (to_le_bytes 8 q) = q)
    ∧ ((s.write_double_quad_word dq).bytes = s.bytes ++ to_le_bytes 16 dq
      ∧ (s.write_double_quad_word dq).labels = s.labels
      ∧ (to_le_bytes 16 dq).length = 16
      ∧ from_le_bytes (to_le_bytes 16 dq) = dq) :=
  ⟨⟨by simp [write_byte, to_le_bytes,
        Nat.mod_eq_of_lt (show b < 256 by omega)], rfl,
      to_le_bytes_length 1 b,
      from_to_le_bytes 1 b (lt_of_lt_of_le hb (by norm_num))⟩,
    ⟨rfl, rfl, to_le_bytes_length 2 w,
      from_to_le_bytes 2 w (lt_of_lt_of_le hw (by norm_num))⟩,
    ⟨rfl, rfl, to_le_bytes_length 4 d,
      from_to_le_bytes 4 d (lt_of_lt_of_le hd (by norm_num))⟩,
    ⟨rfl, rfl, to_le_bytes_length 8 q,
      from_to_le_bytes 8 q (lt_of_lt_of_le hq (by norm_num))⟩,
    ⟨rfl, rfl, to_le_bytes_length 16 dq,
      from_to_le_bytes 16 dq (lt_of_lt_of_le hdq (by norm_num))⟩⟩

/-- C7 witness: the theorem applied to the empty stream and one concrete
value per width. -/
theorem c7_write_primitives_witness :
    (171 : Nat) < 2 ^ 8 ∧ (513 : Nat) < 2 ^ 16 ∧ (70000 : Nat) < 2 ^ 32
    ∧ (2 ^ 40 : Nat) < 2 ^ 64 ∧ (2 ^ 100 : Nat) < 2 ^ 128
    ∧ (((new.write_byte 171).bytes = new.bytes ++ to_le_bytes 1 171
        ∧ (new.write_byte 171).labels = new.labels
        ∧ (to_le_bytes 1 171).length = 1
        ∧ from_le_bytes (to_le_bytes 1 171) = 171)
      ∧ ((new.write_word 513).bytes = new.bytes ++ to_le_bytes 2 513
        ∧ (new.write_word 513).labels = new.labels
        ∧ (to_le_bytes 2 513).length = 2
        ∧ from_le_bytes (to_le_bytes 2 513) = 513)
      ∧ ((new.write_double_word 70000).bytes
          = new.bytes ++ to_le_bytes 4 70000
        ∧ (new.write_double_word 70000).labels = new.labels
        ∧ (to_le_bytes 4 70000).length = 4
        ∧ from_le_bytes (to_le_bytes 4 70000) = 70000)
      ∧ ((new.write_quad_word (2 ^ 40)).bytes
          = new.bytes ++ to_le_bytes 8 (2 ^ 40)
        ∧ (new.write_quad_word (2 ^ 40)).labels = new.labels
        ∧ (to_le_bytes 8 (2 ^ 40)).length = 8
        ∧ from_le_bytes (to_le_bytes 8 (2 ^ 40)) = 2 ^ 40)
      ∧ ((new.write_double_quad_word (2 ^ 100)).bytes
          = new.bytes ++ to_le_bytes 16 (2 ^ 100)
        ∧ (new.write_double_quad_word (2 ^ 100)).labels = new.labels
        ∧ (to_le_bytes 16 (2 ^ 100)).length = 16
        ∧ from_le_bytes (to_le_bytes 16 (2 ^ 100)) = 2 ^ 100)) :=
  ⟨by decide, by decide, by decide, by decide, by decide,
    c7_write_primitives new 171 513 70000 (2 ^ 40) (2 ^ 100)
      (by decide) (by decide) (by decide) (by decide) (by decide)⟩

end x86_64InstructionStream

/-- C8: attaching the same in-range label twice in succession, with no
intervening label creations, is idempotent — the second attach leaves the
whole stream unchanged, and the label reads back `Attached` at the same
offset (the registry length) after both calls. -/
theorem c8_attach_idempotent (s : x86_64InstructionStream) (l : EntityRef)
    (h : l.as_usize < s.labels.len) :
    (s.attach_label l).attach_label l = s.attach_label l
    ∧ ((s.attach_label l).attach_label l).labels.get l
        = some (Label.Attached s.labels.len) := by
  open x86_64InstructionStream in
  have h' : l.val < s.labels.items.length := by
    simpa [EntityRef.as_usize, EntityList.len] using h
  have hidem : (s.attach_label l).attach_label l = s.attach_label l := by
    simp [attach_label, EntityList.set, EntityList.len, List.length_set,
      List.set_set]
  refine ⟨hidem, ?_⟩
  rw [hidem]
  simp only [attach_label, EntityList.set, EntityList.get,
    EntityRef.as_usize, EntityList.len]
  exact List.getElem?_set_self h'

/-- C8 witness: the theorem applied to a one-label stream and the
reference with index 0. -/
theorem c8_attach_idempotent_witness :
    ((EntityRef.new 0).as_usize
        < (x86_64InstructionStream.new.create_label).2.labels.len)
    ∧ (((x86_64InstructionStream.new.create_label).2.attach_label
          (EntityRef.new 0)).attach_label (EntityRef.new 0)
        = (x86_64InstructionStream.new.create_label).2.attach_label
            (EntityRef.new 0)
      ∧ (((x86_64InstructionStream.new.create_label).2.attach_label
            (EntityRef.new 0)).attach_label (EntityRef.new 0)).labels.get
            (EntityRef.new 0)
          = some (Label.Attached
              (x86_64InstructionStream.new.create_label).2.labels.len)) :=
  ⟨by decide,
    c8_attach_idempotent (x86_64InstructionStream.new.create_label).2
      (EntityRef.new 0) (by decide)⟩
